import Mathlib

/-!
Verification of the faceted aggregation-and-filtering engine of the
CompanyAnalyzer report view.

The definitions below are a shallow embedding of the JavaScript source.
The canonical faceted variant lives in `src/unnamed/part_003`
(`ReportDetailSection` with `activeFilters`); sibling variants live in
`src/frontend/src/components/ReportDetailSection.jsx`,
`src/unnamed/part_002` and `src/unnamed/part_004`.

Modelling conventions:
* a JS string field that may be `undefined` is modelled as `String`, with
  `""` standing for both the empty string and absence (the code only ever
  distinguishes them through truthiness, where both are falsy);
* `pe_owner_names` is a `List String` (`[]` for absent; the JS null-guards
  `c.pe_owner_names &&` are truthiness checks that only exclude absence);
* JS numbers that reach the arithmetic here are modelled as `ℚ`;
  `undefined` / non-numeric inputs are `Option.none`, and a division whose
  result is not a finite number (`NaN` / `Infinity`) is `Option.none`;
* a JS object used as a counter (`acc[k] = (acc[k] || 0) + 1`) is an
  insertion-ordered association list `List (String × Nat)`, matching
  `Object.entries` enumeration order for non-index string keys;
* `Array.prototype.sort` with comparator `(a, b) => b.count - a.count` is
  specified by ECMAScript to be a stable sort; it is embedded as a stable
  insertion sort by descending count.
-/

namespace CompanyAnalyzer

/-- One company record of `reportData.data`, with the fields the report
view reads. -/
structure Company where
  company_name : String
  ownership_category : String
  nation : String
  public_private : String
  pe_owner_names : List String
  is_pe_owned : Bool
deriving DecidableEq

/-- Insertion-ordered counter object: `Object.entries` of a JS object used
as `acc[k] = (acc[k] || 0) + 1`. -/
abbrev CountMap := List (String × Nat)

/-- `acc[k] || 0`: the count stored under key `k`, or `0` when absent. -/
def lookupCount : CountMap → String → Nat
  | [], _ => 0
  | (k', v) :: rest, k => if k' = k then v else lookupCount rest k

/-- `k in acc`: whether the key is present. -/
def hasKey (m : CountMap) (k : String) : Bool :=
  m.any (fun p => p.1 = k)

/-- Update one entry of the counter: increment the value when the key
matches, leave the entry alone otherwise. -/
def bumpEntry (k : String) (p : String × Nat) : String × Nat :=
  if p.1 = k then (p.1, p.2 + 1) else p

/-- `acc[k] = (acc[k] || 0) + 1`: increment in place when the key exists
(keeping its position), otherwise append the key with count 1 (JS objects
enumerate string keys in insertion order). -/
def bump (m : CountMap) (k : String) : CountMap :=
  if hasKey m k then m.map (bumpEntry k)
  else m ++ [(k, 1)]

/-- `c.ownership_category || "Unknown"` (part_003 line 102). -/
def orUnknown (s : String) : String :=
  if s = "" then "Unknown" else s

/-- The `categoryDistribution` reduce of part_003 lines 101-105. -/
def categoryDistribution (cs : List Company) : CountMap :=
  cs.foldl (fun acc c => bump acc (orUnknown c.ownership_category)) []

/-- `peRelatedCount` of part_003 lines 107-109. -/
def peRelatedCount (cs : List Company) : Nat :=
  lookupCount (categoryDistribution cs) "PE-Owned"
    + lookupCount (categoryDistribution cs) "Public (PE-Backed)"

/-- The `nations` reduce of part_003 lines 111-115: a record is counted
only when `c.nation` is truthy and not exactly `"Unknown"`. -/
def nations (cs : List Company) : CountMap :=
  cs.foldl
    (fun acc c =>
      if c.nation ≠ "" ∧ c.nation ≠ "Unknown" then bump acc c.nation else acc)
    []

/-- Stable descending insertion: place `x` after every already-placed entry
whose count is strictly greater, and also after earlier entries with equal
count (the already-placed entries originally preceded `x`). -/
def insertByCountDesc (x : String × Nat) : CountMap → CountMap
  | [] => [x]
  | y :: ys =>
    if x.2 < y.2 then y :: insertByCountDesc x ys else x :: y :: ys

/-- Stable sort by descending count: the specified outcome of
`.sort((a, b) => b.count - a.count)` on the entry list. -/
def sortByCountDesc : CountMap → CountMap
  | [] => []
  | x :: xs => insertByCountDesc x (sortByCountDesc xs)

/-- `topN`: sort descending by count (stable) and truncate to the first
`n` entries (`.sort((a, b) => b.count - a.count).slice(0, n)`). -/
def topN (m : CountMap) (n : Nat) : CountMap :=
  (sortByCountDesc m).take n

/-- `summaryData.nationData` of part_003 lines 123-126: top 10 nations. -/
def nationData (cs : List Company) : CountMap :=
  topN (nations cs) 10

/-- The `summaryData` object of part_003 lines 117-127 (the `categoryData`
entry list is `categoryDistribution` itself: `Object.entries` of the
insertion-ordered counter). -/
structure Summary where
  total : Nat
  peRelatedCount : Nat
  categoryData : CountMap
  nationData : CountMap
deriving DecidableEq

/-- Build `summaryData` from the unfiltered record collection. -/
def summaryOf (cs : List Company) : Summary :=
  { total := cs.length
    peRelatedCount := peRelatedCount cs
    categoryData := categoryDistribution cs
    nationData := nationData cs }

/-- The facet keys `addFilter` is ever called with (part_003 lines 245 and
286): `"ownership_category"` from the pie chart, `"nation"` from the bar
chart. -/
inductive FilterKey where
  | ownership_category
  | nation
deriving DecidableEq

/-- One element of `activeFilters`: `{ type, value }`. -/
structure Filter where
  type : FilterKey
  value : String
deriving DecidableEq

/-- `c[filter.type]`: dynamic field access for the two facet keys. -/
def getField (c : Company) : FilterKey → String
  | .ownership_category => c.ownership_category
  | .nation => c.nation

/-- `(c) => c[filter.type] === filter.value` (part_003 line 137). -/
def matchesFilter (c : Company) (f : Filter) : Bool :=
  decide (getField c f.type = f.value)

/-- `s.toLowerCase()` as a character list (lowering at the granularity
Lean's `Char.toLower` provides). Working on `List Char` keeps the search
predicate executable down to the kernel. -/
def jsToLower (s : String) : List Char :=
  s.data.map Char.toLower

/-- Whether `needle` occurs at the start of `hay`. -/
def isPrefixL : List Char → List Char → Bool
  | [], _ => true
  | _ :: _, [] => false
  | a :: as, b :: bs => a = b && isPrefixL as bs

/-- Substring containment, `hay.includes(needle)`: `needle` occurs at the
start of some suffix of `hay`. -/
def containsSub : List Char → List Char → Bool
  | [], needle => needle.isEmpty
  | h :: t, needle => isPrefixL needle (h :: t) || containsSub t needle

/-- The search predicate of part_003 line 132:
`c.company_name.toLowerCase().includes(searchTerm.toLowerCase())`. -/
def matchesSearch (c : Company) (term : String) : Bool :=
  containsSub (jsToLower c.company_name) (jsToLower term)

/-- part_003 lines 130-134: the search filter is skipped entirely when
`searchTerm` is falsy (the empty string). -/
def applySearch (cs : List Company) (term : String) : List Company :=
  if term = "" then cs
  else cs.filter (fun c => matchesSearch c term)

/-- part_003 lines 135-139: `activeFilters.forEach(filter => processed =
processed.filter(c => c[filter.type] === filter.value))`. -/
def applyFilters (cs : List Company) (fs : List Filter) : List Company :=
  fs.foldl (fun acc f => acc.filter (fun c => matchesFilter c f)) cs

/-- `filteredCompanies` of part_003 lines 129-139: search first, then the
active facet filters. -/
def visibleRecords (cs : List Company) (term : String) (fs : List Filter) :
    List Company :=
  applyFilters (applySearch cs term) fs

/-- The value of the part_003 `useMemo` (lines 97-142) on a loaded report:
`{ summary, filteredCompanies }`. -/
def deriveView (cs : List Company) (term : String) (fs : List Filter) :
    Summary × List Company :=
  (summaryOf cs, visibleRecords cs term fs)

/-- `addFilter` of part_003 lines 144-148. -/
def addFilter (fs : List Filter) (k : FilterKey) (v : String) : List Filter :=
  if fs.any (fun f => decide (f.type = k) && decide (f.value = v)) then fs
  else fs ++ [⟨k, v⟩]

/-- `removeFilter` of part_003 lines 150-157. -/
def removeFilter (fs : List Filter) (g : Filter) : List Filter :=
  fs.filter (fun f => !(decide (f.type = g.type) && decide (f.value = g.value)))

/-- `Math.floor` on an exact rational. -/
def jsFloor (q : ℚ) : ℤ := ⌊q⌋

/-- Truncation toward zero: the rounding the JS `%` operator applies to
the quotient (the remainder takes the dividend's sign). -/
def jsTrunc (q : ℚ) : ℤ := if 0 ≤ q then ⌊q⌋ else -⌊-q⌋

/-- The JS remainder `a % b`. -/
def jsMod (a b : ℚ) : ℚ := a - b * (jsTrunc (a / b) : ℚ)

/-- `Math.round`: nearest integer, ties toward positive infinity. -/
def jsRound (q : ℚ) : ℤ := ⌊q + 1 / 2⌋

/-- `(x).toFixed(0)` read back as an integer: nearest integer, ties toward
the larger value (ECMAScript `Number.prototype.toFixed`). -/
def toFixed0 (q : ℚ) : ℤ := ⌊q + 1 / 2⌋

/-- `(x).toFixed(1)` read back as a rational with one decimal digit. -/
def toFixed1 (q : ℚ) : ℚ := ((⌊10 * q + 1 / 2⌋ : ℤ) : ℚ) / 10

/-- `formatDuration` of ReportDetailSection.jsx lines 33-38 (the same
function appears in part_001 and the first half of part_002). `none`
models an absent or non-numeric input (`typeof seconds !== "number" ||
isNaN(seconds)` returns `"N/A"`). -/
def formatDuration : Option ℚ → String
  | none => "N/A"
  | some s =>
    if 0 < jsFloor (s / 60) then
      toString (jsFloor (s / 60)) ++ "m " ++ toString (jsRound (jsMod s 60)) ++ "s"
    else
      toString (jsRound (jsMod s 60)) ++ "s"

/-- `formatDuration` of part_003 lines 66-72 (also in the later variants of
part_002 and part_004): identical to the jsx version except that the
minutes branch is prefixed with `"~"`. -/
def formatDurationTilde : Option ℚ → String
  | none => "N/A"
  | some s =>
    if 0 < jsFloor (s / 60) then
      "~" ++ toString (jsFloor (s / 60)) ++ "m " ++ toString (jsRound (jsMod s 60)) ++ "s"
    else
      toString (jsRound (jsMod s 60)) ++ "s"

/-- JS division restricted to finite results: `a / b` is `none` when
`b = 0` (`0 / 0` is `NaN`, otherwise `±Infinity`; neither is finite). -/
def jsDiv (a b : ℚ) : Option ℚ := if b = 0 then none else some (a / b)

/-- The Executive Summary percentage of part_003 lines 198-206:
`((summary.peRelatedCount / summary.total) * 100).toFixed(0)`. There is no
zero-total guard; `none` models the `NaN` rendered on an empty record
collection. -/
def execSummaryPercent (cs : List Company) : Option ℤ :=
  (jsDiv ((peRelatedCount cs : ℚ)) (((summaryOf cs).total : ℚ))).map
    (fun q => toFixed0 (q * 100))

/-- `peOwned` of ReportDetailSection.jsx line 105:
`companies.filter(c => c.is_pe_owned).length`. -/
def peOwned (cs : List Company) : Nat :=
  (cs.filter (fun c => c.is_pe_owned)).length

/-- The PE Owned StatCard percentage of ReportDetailSection.jsx lines
158-161: `summary.total > 0 ? ((summary.peOwned / summary.total) *
100).toFixed(1) : 0` — guarded, but rounded to one decimal digit. -/
def statCardPercent (cs : List Company) : ℚ :=
  if 0 < cs.length then toFixed1 ((peOwned cs : ℚ) / (cs.length : ℚ) * 100)
  else 0

/-- Percentage as the spec words it (§4.2): `percentage(part, total) =
total > 0 ? round(100 * part / total, 0 decimals) : 0`. This definition
follows the spec, not the source, and exists for the refinement comparison
with the code's percentage sites. -/
def specPercentage (part total : ℚ) : ℤ :=
  if 0 < total then jsRound (100 * part / total) else 0

/-- The `peOwners` reduce of ReportDetailSection.jsx lines 120-127 and of
part_002 lines 110-116: `if (c.is_pe_owned && c.pe_owner_names)` — owners
are counted only for records whose `is_pe_owned` is truthy (the second
conjunct only guards against an absent list, which is `[]` here). -/
def peOwners (cs : List Company) : CountMap :=
  cs.foldl
    (fun acc c =>
      if c.is_pe_owned then c.pe_owner_names.foldl bump acc else acc)
    []

/-- The `peOwners` field of `calculateSummary` in part_004 lines 30-101:
the early return for a missing or empty collection yields the empty map,
and the per-record guard is `if (company.pe_owner_names &&
company.pe_owner_names.length > 0)` — no `is_pe_owned` condition. -/
def calculateSummaryPeOwners (cs : List Company) : CountMap :=
  if cs.length = 0 then []
  else
    cs.foldl
      (fun acc c =>
        if 0 < c.pe_owner_names.length then c.pe_owner_names.foldl bump acc
        else acc)
      []

/-- The five-record scenario of spec §8: ownership categories
`[PE-Owned, PE-Owned, Public (PE-Backed), Private, Unknown]`. -/
def demoCompanies : List Company :=
  [ { company_name := "Alpha", ownership_category := "PE-Owned",
      nation := "USA", public_private := "Private",
      pe_owner_names := ["Blackstone"], is_pe_owned := true }
  , { company_name := "Beta", ownership_category := "PE-Owned",
      nation := "Germany", public_private := "Private",
      pe_owner_names := ["KKR"], is_pe_owned := true }
  , { company_name := "Gamma", ownership_category := "Public (PE-Backed)",
      nation := "USA", public_private := "Public",
      pe_owner_names := ["Bain Capital"], is_pe_owned := false }
  , { company_name := "Delta", ownership_category := "Private",
      nation := "France", public_private := "Private",
      pe_owner_names := [], is_pe_owned := false }
  , { company_name := "Epsilon", ownership_category := "Unknown",
      nation := "", public_private := "Unknown",
      pe_owner_names := [], is_pe_owned := false } ]

/-- A record that is not PE-owned but still lists an owning firm. -/
def nonPeOwnedWithOwner : Company :=
  { company_name := "Acme Corp", ownership_category := "Private",
    nation := "USA", public_private := "Private",
    pe_owner_names := ["Blackstone"], is_pe_owned := false }

/-! ## Counter-object lemmas -/

theorem lookupCount_eq_zero :
    ∀ (m : CountMap) (k : String), hasKey m k = false → lookupCount m k = 0
  | [], _, _ => rfl
  | (k', v) :: rest, k, h => by
    simp only [hasKey, List.any_cons, Bool.or_eq_false_iff,
      decide_eq_false_iff_not] at h
    simp only [lookupCount, if_neg h.1]
    exact lookupCount_eq_zero rest k (by simpa [hasKey] using h.2)

theorem bumpEntry_eq (k k' : String) (v : Nat) :
    bumpEntry k (k', v) = if k' = k then (k', v + 1) else (k', v) := rfl

theorem lookupCount_cons (k' : String) (v : Nat) (rest : CountMap) (k : String) :
    lookupCount ((k', v) :: rest) k = if k' = k then v else lookupCount rest k :=
  rfl

theorem hasKey_cons (k' : String) (v : Nat) (rest : CountMap) (k : String) :
    hasKey ((k', v) :: rest) k = (decide (k' = k) || hasKey rest k) := rfl

theorem lookupCount_append :
    ∀ (m₁ m₂ : CountMap) (k : String),
      lookupCount (m₁ ++ m₂) k
        = if hasKey m₁ k then lookupCount m₁ k else lookupCount m₂ k
  | [], m₂, k => by simp [hasKey, lookupCount]
  | (k', v) :: rest, m₂, k => by
    rw [List.cons_append]
    by_cases h : k' = k
    · simp [lookupCount_cons, hasKey_cons, h]
    · simp [lookupCount_cons, hasKey_cons, h, lookupCount_append rest m₂ k]

theorem lookupCount_map_bump :
    ∀ (m : CountMap) (k : String),
      lookupCount (m.map (bumpEntry k)) k
        = lookupCount m k + (if hasKey m k then 1 else 0)
  | [], k => by simp [hasKey, lookupCount]
  | (k', v) :: rest, k => by
    rw [List.map_cons, bumpEntry_eq]
    by_cases h : k' = k
    · simp [lookupCount_cons, hasKey_cons, h]
    · simp [lookupCount_cons, hasKey_cons, h, lookupCount_map_bump rest k]

theorem lookupCount_map_bump_ne :
    ∀ (m : CountMap) (j k : String), j ≠ k →
      lookupCount (m.map (bumpEntry j)) k = lookupCount m k
  | [], _, _, _ => rfl
  | (k', v) :: rest, j, k, h => by
    rw [List.map_cons, bumpEntry_eq]
    by_cases hj : k' = j
    · subst hj
      simp [lookupCount_cons, h, lookupCount_map_bump_ne rest _ k h]
    · by_cases hk : k' = k
      · subst hk
        simp [lookupCount_cons, hj]
      · simp [lookupCount_cons, hj, hk, lookupCount_map_bump_ne rest j k h]

theorem lookupCount_bump_self (m : CountMap) (k : String) :
    lookupCount (bump m k) k = lookupCount m k + 1 := by
  unfold bump
  by_cases h : hasKey m k
  · simp [h, lookupCount_map_bump]
  · rw [if_neg h, lookupCount_append, if_neg (by simpa using h),
      lookupCount_eq_zero m k (by simpa using h)]
    simp [lookupCount]

theorem lookupCount_bump_ne (m : CountMap) (j k : String) (h : j ≠ k) :
    lookupCount (bump m j) k = lookupCount m k := by
  unfold bump
  by_cases hj : hasKey m j
  · simp [hj, lookupCount_map_bump_ne m j k h]
  · rw [if_neg hj, lookupCount_append]
    by_cases hk : hasKey m k
    · simp [hk]
    · simp [hk, lookupCount, if_neg h, lookupCount_eq_zero m k (by simpa using hk)]

theorem lookupCount_le_bump (m : CountMap) (j k : String) :
    lookupCount m k ≤ lookupCount (bump m j) k := by
  by_cases h : j = k
  · subst h; rw [lookupCount_bump_self]; exact Nat.le_succ _
  · rw [lookupCount_bump_ne m j k h]

theorem lookupCount_foldl_bump (names : List String) :
    ∀ (m : CountMap) (n : String),
      lookupCount (names.foldl bump m) n = lookupCount m n + names.count n := by
  induction names with
  | nil => intro m n; simp
  | cons a as ih =>
    intro m n
    by_cases h : a = n
    · subst h
      simp [List.foldl_cons, ih, lookupCount_bump_self, List.count_cons]
      omega
    · simp [List.foldl_cons, ih, lookupCount_bump_ne m a n h, List.count_cons,
        Ne.symm h]

theorem lookupCount_le_foldl_cat (cs : List Company) :
    ∀ (m : CountMap) (k : String),
      lookupCount m k
        ≤ lookupCount
            (cs.foldl (fun acc c => bump acc (orUnknown c.ownership_category)) m)
            k := by
  induction cs with
  | nil => intro m k; simp
  | cons c rest ih =>
    intro m k
    exact le_trans (lookupCount_le_bump m (orUnknown c.ownership_category) k)
      (ih _ k)

/-! ## Claims about the aggregation asymmetry and the PE-related count -/

/-- A record whose nation is excluded from aggregation but whose
ownership category is absent: exercises both halves of claim C5. -/
def unknownNationRecord : Company :=
  { company_name := "Zeta", ownership_category := "", nation := "",
    public_private := "Unknown", pe_owner_names := [], is_pe_owned := false }

/-- Claim C5 (confirmed): a record whose jurisdiction is the empty string
or exactly "Unknown" contributes to no bucket of the jurisdiction
breakdown while still counting toward `summary.total`, whereas the
ownership-category breakdown puts records with an absent or empty category
into an "Unknown" bucket. -/
theorem nations_exclude_unknown (cs1 cs2 : List Company) (r : Company)
    (h : r.nation = "" ∨ r.nation = "Unknown") :
    nations (cs1 ++ r :: cs2) = nations (cs1 ++ cs2) ∧
    (summaryOf (cs1 ++ r :: cs2)).total = (summaryOf (cs1 ++ cs2)).total + 1 ∧
    (r.ownership_category = "" →
      1 ≤ lookupCount (categoryDistribution (cs1 ++ r :: cs2)) "Unknown") := by
  refine ⟨?_, ?_, ?_⟩
  · unfold nations
    simp only [List.foldl_append, List.foldl_cons]
    have hcond : ¬(r.nation ≠ "" ∧ r.nation ≠ "Unknown") := by
      rcases h with h | h <;> simp [h]
    rw [if_neg hcond]
  · simp [summaryOf]
    omega
  · intro hcat
    unfold categoryDistribution
    simp only [List.foldl_append, List.foldl_cons]
    have hstep : orUnknown r.ownership_category = "Unknown" := by
      simp [orUnknown, hcat]
    rw [hstep]
    exact le_trans
      (by rw [lookupCount_bump_self]; omega)
      (lookupCount_le_foldl_cat cs2 _ "Unknown")

/-- Witness for C5 at a concrete record with empty nation and empty
ownership category. -/
theorem nations_exclude_unknown_witness :
    (unknownNationRecord.nation = "" ∨ unknownNationRecord.nation = "Unknown") ∧
    (nations ([] ++ unknownNationRecord :: []) = nations ([] ++ []) ∧
     (summaryOf ([] ++ unknownNationRecord :: [])).total
        = (summaryOf ([] ++ [])).total + 1 ∧
     (unknownNationRecord.ownership_category = "" →
       1 ≤ lookupCount (categoryDistribution ([] ++ unknownNationRecord :: []))
             "Unknown")) :=
  ⟨Or.inl (by decide),
   nations_exclude_unknown [] [] unknownNationRecord (Or.inl (by decide))⟩

/-- Claim C6 (amended): `peRelatedCount` is the sum of the
ownership-category counts for exactly "PE-Owned" and "Public (PE-Backed)"
and is unaffected by the view state; on the five-record scenario with
categories [PE-Owned, PE-Owned, Public (PE-Backed), Private, Unknown] that
sum is 2 + 1 = 3 and the rendered percentage is 60 (not 2 and 40 as the
claim's scenario states). -/
theorem peRelatedCount_spec (cs : List Company) (t : String) (fs : List Filter) :
    (summaryOf cs).peRelatedCount
        = lookupCount (categoryDistribution cs) "PE-Owned"
          + lookupCount (categoryDistribution cs) "Public (PE-Backed)" ∧
    (deriveView cs t fs).1.peRelatedCount = (summaryOf cs).peRelatedCount ∧
    (summaryOf demoCompanies).peRelatedCount = 3 ∧
    execSummaryPercent demoCompanies = some 60 := by
  refine ⟨rfl, rfl, by decide, ?_⟩
  have h1 : peRelatedCount demoCompanies = 3 := by decide
  have h2 : (summaryOf demoCompanies).total = 5 := by decide
  unfold execSummaryPercent
  rw [h1, h2]
  norm_num [jsDiv, toFixed0]

/-- Counterexample for C6 as stated: on the claim's own five-record
scenario the code yields `peRelatedCount = 3` and a 60% share, not
`peRelatedCount = 2` and 40%. -/
theorem peRelatedCount_scenario_counterexample :
    (summaryOf demoCompanies).peRelatedCount = 3 ∧
    (summaryOf demoCompanies).peRelatedCount ≠ 2 ∧
    lookupCount (categoryDistribution demoCompanies) "PE-Owned" = 2 ∧
    lookupCount (categoryDistribution demoCompanies) "Public (PE-Backed)"
      = 1 ∧
    execSummaryPercent demoCompanies ≠ some 40 := by
  refine ⟨by decide, by decide, by decide, by decide, ?_⟩
  have h1 : peRelatedCount demoCompanies = 3 := by decide
  have h2 : (summaryOf demoCompanies).total = 5 := by decide
  unfold execSummaryPercent
  rw [h1, h2]
  norm_num [jsDiv, toFixed0]

/-- Equation form of `calculateSummaryPeOwners`: the early return for an
empty collection coincides with the fold. -/
theorem calculateSummaryPeOwners_eq (cs : List Company) :
    calculateSummaryPeOwners cs
      = cs.foldl
          (fun acc c =>
            if 0 < c.pe_owner_names.length then c.pe_owner_names.foldl bump acc
            else acc)
          [] := by
  unfold calculateSummaryPeOwners
  by_cases h : cs.length = 0
  · rw [if_pos h, List.length_eq_zero.mp h]
    rfl
  · rw [if_neg h]

/-- Claim C9 (corrected): in part_004's `calculateSummary`, appending a
record adds one count per occurrence of each name in its
`pe_owner_names` (unconditional fan-out); in the jsx/part_002 `peOwners`
reduce the same holds only when the record's `is_pe_owned` is true, and a
record with `is_pe_owned` false contributes nothing. -/
theorem owningFirm_fanout (cs : List Company) (r : Company) (n : String) :
    lookupCount (calculateSummaryPeOwners (cs ++ [r])) n
      = lookupCount (calculateSummaryPeOwners cs) n + r.pe_owner_names.count n ∧
    lookupCount (peOwners (cs ++ [r])) n
      = lookupCount (peOwners cs) n
        + (if r.is_pe_owned then r.pe_owner_names.count n else 0) := by
  constructor
  · rw [calculateSummaryPeOwners_eq, calculateSummaryPeOwners_eq,
      List.foldl_append]
    simp only [List.foldl_cons, List.foldl_nil]
    by_cases h : 0 < r.pe_owner_names.length
    · rw [if_pos h, lookupCount_foldl_bump]
    · rw [if_neg h]
      have hnil : r.pe_owner_names = [] := by
        cases hnames : r.pe_owner_names with
        | nil => rfl
        | cons a as => rw [hnames] at h; simp at h
      rw [hnil]
      simp
  · unfold peOwners
    rw [List.foldl_append]
    simp only [List.foldl_cons, List.foldl_nil]
    by_cases h : r.is_pe_owned
    · rw [if_pos h, if_pos h, lookupCount_foldl_bump]
    · rw [if_neg h, if_neg h]
      simp

/-- Counterexample for C9 as stated: a record that lists an owning firm
but has `is_pe_owned = false` contributes nothing to the jsx/part_002
owning-firm breakdown (the claim demands +1), while part_004's
`calculateSummary` does count it. -/
theorem peOwners_condition_counterexample :
    lookupCount (peOwners [nonPeOwnedWithOwner]) "Blackstone" = 0 ∧
    nonPeOwnedWithOwner.pe_owner_names = ["Blackstone"] ∧
    nonPeOwnedWithOwner.is_pe_owned = false ∧
    lookupCount (calculateSummaryPeOwners [nonPeOwnedWithOwner]) "Blackstone"
      = 1 := by
  decide

/-! ## Claims about view derivation, search and the filter set -/

/-- Claim C2 (confirmed): the derived summary is computed from the
unfiltered record collection — it equals `summaryOf cs` for every search
term and filter set, and its `total` is the size of the whole collection. -/
theorem summary_independent_of_viewstate (cs : List Company) (t t' : String)
    (fs fs' : List Filter) :
    (deriveView cs t fs).1 = summaryOf cs ∧
    (deriveView cs t fs).1 = (deriveView cs t' fs').1 ∧
    (deriveView cs t fs).1.total = cs.length :=
  ⟨rfl, rfl, rfl⟩

theorem containsSub_nil (hay : List Char) : containsSub hay [] = true := by
  cases hay <;> simp [containsSub, isPrefixL]

theorem matchesSearch_empty (c : Company) : matchesSearch c "" = true := by
  have h : jsToLower "" = [] := rfl
  unfold matchesSearch
  rw [h]
  exact containsSub_nil _

theorem applySearch_eq_filter (cs : List Company) (t : String) :
    applySearch cs t = cs.filter (fun c => matchesSearch c t) := by
  unfold applySearch
  by_cases h : t = ""
  · subst h
    rw [if_pos rfl]
    exact (List.filter_eq_self.mpr (fun c _ => matchesSearch_empty c)).symm
  · rw [if_neg h]

theorem applyFilters_eq_filter (fs : List Filter) :
    ∀ cs : List Company,
      applyFilters cs fs
        = cs.filter (fun c => fs.all (fun f => matchesFilter c f)) := by
  induction fs with
  | nil =>
    intro cs
    simp [applyFilters]
  | cons f rest ih =>
    intro cs
    unfold applyFilters
    simp only [List.foldl_cons]
    have hstep :
        List.foldl (fun acc f => acc.filter (fun c => matchesFilter c f))
            (cs.filter (fun c => matchesFilter c f)) rest
          = applyFilters (cs.filter (fun c => matchesFilter c f)) rest := rfl
    rw [hstep, ih, List.filter_filter]
    apply List.filter_congr
    intro c _
    simp [List.all_cons, Bool.and_comm]

/-- Claim C3 (confirmed): `visibleRecords` keeps exactly the records that
pass the lower-cased substring search (empty term matches everything) AND
every active facet filter by exact field equality; the search is applied
first, then the facet filters. -/
theorem visibleRecords_spec (cs : List Company) (t : String) (fs : List Filter) :
    visibleRecords cs t fs
      = cs.filter
          (fun c => matchesSearch c t && fs.all (fun f => matchesFilter c f)) ∧
    visibleRecords cs t fs = applyFilters (applySearch cs t) fs := by
  refine ⟨?_, rfl⟩
  unfold visibleRecords
  rw [applySearch_eq_filter, applyFilters_eq_filter, List.filter_filter]
  apply List.filter_congr
  intro c _
  rw [Bool.and_comm]

theorem filter_any_eq_mem (fs : List Filter) (k : FilterKey) (v : String) :
    fs.any (fun f => decide (f.type = k) && decide (f.value = v)) = true
      ↔ (⟨k, v⟩ : Filter) ∈ fs := by
  rw [List.any_eq_true]
  constructor
  · rintro ⟨f, hf, hp⟩
    simp only [Bool.and_eq_true, decide_eq_true_eq] at hp
    obtain ⟨h1, h2⟩ := hp
    have hfe : f = ⟨k, v⟩ := by cases f; simp_all
    rwa [hfe] at hf
  · intro hmem
    exact ⟨⟨k, v⟩, hmem, by simp⟩

theorem addFilter_of_not_mem (fs : List Filter) (k : FilterKey) (v : String)
    (h : (⟨k, v⟩ : Filter) ∉ fs) :
    addFilter fs k v = fs ++ [⟨k, v⟩] := by
  unfold addFilter
  rw [if_neg (fun hany => h ((filter_any_eq_mem fs k v).mp hany))]

theorem addFilter_of_mem (fs : List Filter) (k : FilterKey) (v : String)
    (h : (⟨k, v⟩ : Filter) ∈ fs) : addFilter fs k v = fs := by
  unfold addFilter
  rw [if_pos ((filter_any_eq_mem fs k v).mpr h)]

theorem removeFilter_not_mem (fs : List Filter) (g : Filter) (h : g ∉ fs) :
    removeFilter fs g = fs := by
  unfold removeFilter
  apply List.filter_eq_self.mpr
  intro f hf
  have hne : f ≠ g := fun hh => h (hh ▸ hf)
  by_cases h1 : f.type = g.type
  · by_cases h2 : f.value = g.value
    · exact absurd (by cases f; cases g; simp_all) hne
    · simp [h2]
  · simp [h1]

/-- Claim C7 (amended): adding an already-present `{key, value}` pair
leaves the filter set unchanged, an absent pair is appended at the end,
removing a non-present filter is a no-op, and `add` followed by `remove`
of the same filter restores the original set PROVIDED the filter was not
already present (when it was, `remove` deletes the pre-existing copy, so
the round-trip identity fails; see the counterexample). -/
theorem filterSet_ops (fs : List Filter) (k : FilterKey) (v : String)
    (g : Filter) (hnew : (⟨k, v⟩ : Filter) ∉ fs) (hg : g ∉ fs) :
    addFilter (addFilter fs k v) k v = addFilter fs k v ∧
    addFilter fs k v = fs ++ [⟨k, v⟩] ∧
    (∀ fs' : List Filter, (⟨k, v⟩ : Filter) ∈ fs' → addFilter fs' k v = fs') ∧
    removeFilter (addFilter fs k v) ⟨k, v⟩ = fs ∧
    removeFilter fs g = fs := by
  have hadd := addFilter_of_not_mem fs k v hnew
  refine ⟨?_, hadd, fun fs' h => addFilter_of_mem fs' k v h, ?_,
    removeFilter_not_mem fs g hg⟩
  · rw [hadd]
    exact addFilter_of_mem _ k v (by simp)
  · rw [hadd]
    have h2 : removeFilter [(⟨k, v⟩ : Filter)] ⟨k, v⟩ = [] := by
      unfold removeFilter
      simp
    calc removeFilter (fs ++ [⟨k, v⟩]) ⟨k, v⟩
        = removeFilter fs ⟨k, v⟩ ++ removeFilter [⟨k, v⟩] ⟨k, v⟩ := by
          unfold removeFilter
          rw [List.filter_append]
      _ = fs ++ [] := by rw [removeFilter_not_mem fs _ hnew, h2]
      _ = fs := by simp

/-- A filter already present in the set, for the round-trip
counterexample. -/
def dupFilter : Filter := ⟨FilterKey.ownership_category, "Private"⟩

/-- Counterexample for C7 as stated: when the added filter is already
present, `add` is a no-op but `remove` deletes the pre-existing copy, so
the add-then-remove round trip does not restore the original set. -/
theorem addRemove_roundtrip_counterexample :
    removeFilter
        (addFilter [dupFilter] FilterKey.ownership_category "Private")
        dupFilter = [] ∧
    removeFilter
        (addFilter [dupFilter] FilterKey.ownership_category "Private")
        dupFilter ≠ [dupFilter] := by
  decide

/-- Witness for the amended C7 at concrete inputs. -/
theorem filterSet_ops_witness :
    ((⟨FilterKey.nation, "USA"⟩ : Filter) ∉ [dupFilter]) ∧
    ((⟨FilterKey.nation, "Italy"⟩ : Filter) ∉ [dupFilter]) ∧
    (addFilter (addFilter [dupFilter] FilterKey.nation "USA")
        FilterKey.nation "USA"
      = addFilter [dupFilter] FilterKey.nation "USA" ∧
    addFilter [dupFilter] FilterKey.nation "USA"
      = [dupFilter] ++ [⟨FilterKey.nation, "USA"⟩] ∧
    (∀ fs' : List Filter, (⟨FilterKey.nation, "USA"⟩ : Filter) ∈ fs' →
      addFilter fs' FilterKey.nation "USA" = fs') ∧
    removeFilter (addFilter [dupFilter] FilterKey.nation "USA")
        ⟨FilterKey.nation, "USA"⟩
      = [dupFilter] ∧
    removeFilter [dupFilter] ⟨FilterKey.nation, "Italy"⟩ = [dupFilter]) :=
  ⟨by decide, by decide,
   filterSet_ops [dupFilter] FilterKey.nation "USA" ⟨FilterKey.nation, "Italy"⟩
     (by decide) (by decide)⟩

/-! ## Claims about the top-N projection -/

theorem mem_insertByCountDesc {z x : String × Nat} :
    ∀ {l : CountMap}, z ∈ insertByCountDesc x l → z = x ∨ z ∈ l
  | [], h => by simpa [insertByCountDesc] using h
  | y :: ys, h => by
    unfold insertByCountDesc at h
    by_cases hc : x.2 < y.2
    · rw [if_pos hc] at h
      rcases List.mem_cons.mp h with h | h
      · exact Or.inr (h ▸ List.mem_cons_self _ _)
      · rcases mem_insertByCountDesc h with h | h
        · exact Or.inl h
        · exact Or.inr (List.mem_cons_of_mem _ h)
    · rw [if_neg hc] at h
      rcases List.mem_cons.mp h with h | h
      · exact Or.inl h
      · exact Or.inr h

theorem pairwise_insertByCountDesc (x : String × Nat) :
    ∀ l : CountMap, List.Pairwise (fun a b => b.2 ≤ a.2) l →
      List.Pairwise (fun a b => b.2 ≤ a.2) (insertByCountDesc x l)
  | [], _ => by simp [insertByCountDesc]
  | y :: ys, h => by
    unfold insertByCountDesc
    rcases List.pairwise_cons.mp h with ⟨hy, hys⟩
    by_cases hc : x.2 < y.2
    · rw [if_pos hc]
      refine List.pairwise_cons.mpr ⟨?_, pairwise_insertByCountDesc x ys hys⟩
      intro z hz
      rcases mem_insertByCountDesc hz with rfl | hz
      · exact le_of_lt hc
      · exact hy z hz
    · rw [if_neg hc]
      refine List.pairwise_cons.mpr ⟨?_, h⟩
      intro z hz
      rcases List.mem_cons.mp hz with rfl | hz
      · exact Nat.le_of_not_lt hc
      · exact le_trans (hy z hz) (Nat.le_of_not_lt hc)

theorem pairwise_sortByCountDesc :
    ∀ m : CountMap, List.Pairwise (fun a b => b.2 ≤ a.2) (sortByCountDesc m)
  | [] => List.Pairwise.nil
  | x :: xs => pairwise_insertByCountDesc x _ (pairwise_sortByCountDesc xs)

theorem filter_insertByCountDesc_ne (x : String × Nat) (k : Nat)
    (h : x.2 ≠ k) :
    ∀ l : CountMap,
      (insertByCountDesc x l).filter (fun p => decide (p.2 = k))
        = l.filter (fun p => decide (p.2 = k))
  | [] => by simp [insertByCountDesc, h]
  | y :: ys => by
    unfold insertByCountDesc
    by_cases hc : x.2 < y.2
    · rw [if_pos hc]
      simp only [List.filter_cons]
      rw [filter_insertByCountDesc_ne x k h ys]
    · rw [if_neg hc]
      simp [List.filter_cons, h]

theorem filter_insertByCountDesc_eq (x : String × Nat) :
    ∀ l : CountMap, List.Pairwise (fun a b => b.2 ≤ a.2) l →
      (insertByCountDesc x l).filter (fun p => decide (p.2 = x.2))
        = x :: l.filter (fun p => decide (p.2 = x.2))
  | [], _ => by simp [insertByCountDesc]
  | y :: ys, h => by
    unfold insertByCountDesc
    rcases List.pairwise_cons.mp h with ⟨hy, hys⟩
    by_cases hc : x.2 < y.2
    · rw [if_pos hc]
      have hyne : ¬(y.2 = x.2) := by omega
      simp [List.filter_cons, hyne, filter_insertByCountDesc_eq x ys hys]
    · rw [if_neg hc]
      simp [List.filter_cons]

theorem filter_sortByCountDesc (k : Nat) :
    ∀ m : CountMap,
      (sortByCountDesc m).filter (fun p => decide (p.2 = k))
        = m.filter (fun p => decide (p.2 = k))
  | [] => rfl
  | x :: xs => by
    show (insertByCountDesc x (sortByCountDesc xs)).filter _ = _
    by_cases h : x.2 = k
    · subst h
      rw [filter_insertByCountDesc_eq x _ (pairwise_sortByCountDesc xs),
        filter_sortByCountDesc x.2 xs]
      simp [List.filter_cons]
    · rw [filter_insertByCountDesc_ne x k h _, filter_sortByCountDesc k xs]
      simp [List.filter_cons, h]

/-- Claim C4 (confirmed): the top-N projection is sorted descending by
count with ties kept in first-encountered order (the sort permutes nothing
within a count class: filtering any fixed count out of the sorted list
returns exactly the original sublist), it has at most `n` entries, the
top-`n` result is exactly the first `n` entries of the top-`(n+1)` result,
and the jurisdiction ranking is `topN` with `n = 10`, hence at most 10
entries. -/
theorem topN_spec (m : CountMap) (n : Nat) (k : Nat) (cs : List Company) :
    List.Pairwise (fun a b => b.2 ≤ a.2) (topN m n) ∧
    (sortByCountDesc m).filter (fun p => decide (p.2 = k))
      = m.filter (fun p => decide (p.2 = k)) ∧
    (topN m n).length ≤ n ∧
    topN m n = (topN m (n + 1)).take n ∧
    nationData cs = topN (nations cs) 10 ∧
    (nationData cs).length ≤ 10 := by
  refine ⟨?_, filter_sortByCountDesc k m, ?_, ?_, rfl, ?_⟩
  · exact List.Pairwise.sublist (List.take_sublist n _)
      (pairwise_sortByCountDesc m)
  · unfold topN
    rw [List.length_take]
    exact min_le_left _ _
  · unfold topN
    rw [List.take_take]
    congr 1
    omega
  · unfold nationData topN
    rw [List.length_take]
    exact min_le_left _ _

/-! ## Claims about percentage derivation and duration formatting -/

/-- Claim C1 (amended): the two percentage sites behave differently. The
PE Owned StatCard (jsx) is guarded: 0 when the collection is empty,
otherwise a ONE-decimal rounding of `100 * peOwned / total`, never NaN.
The Executive Summary (part_003) is unguarded: on a nonempty collection it
agrees with the spec's zero-decimal `percentage`, but on an empty
collection it is NaN (`none`), not 0. -/
theorem percentage_sites (cs : List Company) (h : cs ≠ []) :
    execSummaryPercent cs
      = some (specPercentage (peRelatedCount cs : ℚ) (cs.length : ℚ)) ∧
    (execSummaryPercent cs).isSome = true ∧
    statCardPercent cs
      = toFixed1 ((peOwned cs : ℚ) / (cs.length : ℚ) * 100) ∧
    statCardPercent [] = 0 := by
  have hlen : 0 < cs.length := List.length_pos.mpr h
  have hq : ((cs.length : ℚ)) ≠ 0 := by
    exact_mod_cast Nat.pos_iff_ne_zero.mp hlen
  have hqpos : (0 : ℚ) < (cs.length : ℚ) := by exact_mod_cast hlen
  have e1 : execSummaryPercent cs
      = (jsDiv (peRelatedCount cs : ℚ) (cs.length : ℚ)).map
          (fun q => toFixed0 (q * 100)) := rfl
  refine ⟨?_, ?_, ?_, ?_⟩
  · rw [e1]
    unfold jsDiv
    rw [if_neg hq]
    simp only [Option.map_some']
    congr 1
    unfold specPercentage
    rw [if_pos hqpos]
    unfold toFixed0 jsRound
    congr 1
    ring
  · rw [e1]
    unfold jsDiv
    rw [if_neg hq]
    rfl
  · unfold statCardPercent
    rw [if_pos hlen]
  · rfl

/-- Witness for the amended C1 at the five-record scenario collection. -/
theorem percentage_sites_witness :
    demoCompanies ≠ [] ∧
    (execSummaryPercent demoCompanies
        = some (specPercentage (peRelatedCount demoCompanies : ℚ)
            (demoCompanies.length : ℚ)) ∧
     (execSummaryPercent demoCompanies).isSome = true ∧
     statCardPercent demoCompanies
        = toFixed1
            ((peOwned demoCompanies : ℚ) / (demoCompanies.length : ℚ) * 100) ∧
     statCardPercent [] = 0) :=
  ⟨by decide, percentage_sites demoCompanies (by decide)⟩

/-- Counterexample for C1 as stated: on the empty record collection the
Executive Summary of part_003 derives NaN (modelled `none`), not the `0`
the guarded spec percentage produces. -/
theorem execSummaryPercent_empty_counterexample :
    execSummaryPercent [] = none ∧
    specPercentage 0 0 = 0 ∧
    execSummaryPercent [] ≠ some (specPercentage 0 0) := by
  have h1 : execSummaryPercent [] = none := by
    have e : execSummaryPercent []
        = (jsDiv ((peRelatedCount [] : ℚ)) (((0 : ℕ)) : ℚ)).map
            (fun q => toFixed0 (q * 100)) := rfl
    rw [e]
    norm_num [jsDiv]
  have h2 : specPercentage 0 0 = 0 := by
    unfold specPercentage
    rw [if_neg (lt_irrefl (0 : ℚ))]
  refine ⟨h1, h2, ?_⟩
  rw [h1]
  simp

/-- Claim C8 (amended): the jsx `formatDuration` renders exactly
`"{m}m {s}s"` when minutes are positive, `"{s}s"` otherwise, and `"N/A"`
for absent input; the part_003 variant renders the same strings except for
a `"~"` prefix in the minutes branch (so 125 seconds renders `"2m 5s"` in
jsx but `"~2m 5s"` in part_003). -/
theorem formatDuration_spec (s : ℚ) (h : (60 : ℚ) ≤ s) :
    formatDuration none = "N/A" ∧
    formatDurationTilde none = "N/A" ∧
    formatDuration (some 125) = "2m 5s" ∧
    formatDuration (some 45) = "45s" ∧
    formatDurationTilde (some 125) = "~2m 5s" ∧
    formatDurationTilde (some 45) = "45s" ∧
    formatDuration (some s)
      = toString (jsFloor (s / 60)) ++ "m "
          ++ toString (jsRound (jsMod s 60)) ++ "s" ∧
    formatDurationTilde (some s)
      = "~" ++ toString (jsFloor (s / 60)) ++ "m "
          ++ toString (jsRound (jsMod s 60)) ++ "s" := by
  have e125 : jsFloor ((125 : ℚ) / 60) = 2 := by norm_num [jsFloor]
  have m125 : jsRound (jsMod 125 60) = 5 := by
    norm_num [jsRound, jsMod, jsTrunc, jsFloor]
  have e45 : jsFloor ((45 : ℚ) / 60) = 0 := by norm_num [jsFloor]
  have m45 : jsRound (jsMod 45 60) = 45 := by
    norm_num [jsRound, jsMod, jsTrunc, jsFloor]
  have hm : 0 < jsFloor (s / 60) := by
    unfold jsFloor
    have h1 : (1 : ℚ) ≤ s / 60 := by
      rw [le_div_iff₀ (by norm_num : (0 : ℚ) < 60)]
      linarith
    have h2 := Int.le_floor.mpr (by exact_mod_cast h1 : ((1 : ℤ) : ℚ) ≤ s / 60)
    omega
  refine ⟨rfl, rfl, ?_, ?_, ?_, ?_, ?_, ?_⟩
  · simp only [formatDuration, e125, m125]
    decide
  · simp only [formatDuration, e45, m45]
    decide
  · simp only [formatDurationTilde, e125, m125]
    decide
  · simp only [formatDurationTilde, e45, m45]
    decide
  · simp only [formatDuration, if_pos hm]
  · simp only [formatDurationTilde, if_pos hm]

/-- Witness for the amended C8 at 125 seconds. -/
theorem formatDuration_spec_witness :
    (60 : ℚ) ≤ 125 ∧
    (formatDuration none = "N/A" ∧
     formatDurationTilde none = "N/A" ∧
     formatDuration (some 125) = "2m 5s" ∧
     formatDuration (some 45) = "45s" ∧
     formatDurationTilde (some 125) = "~2m 5s" ∧
     formatDurationTilde (some 45) = "45s" ∧
     formatDuration (some 125)
       = toString (jsFloor ((125 : ℚ) / 60)) ++ "m "
           ++ toString (jsRound (jsMod 125 60)) ++ "s" ∧
     formatDurationTilde (some 125)
       = "~" ++ toString (jsFloor ((125 : ℚ) / 60)) ++ "m "
           ++ toString (jsRound (jsMod 125 60)) ++ "s") :=
  ⟨by decide, formatDuration_spec 125 (by decide)⟩

/-- Counterexample for C8 as stated: the part_003 formatter does not
render `"2m 5s"` at 125 seconds — it renders `"~2m 5s"`. -/
theorem formatDurationTilde_counterexample :
    formatDurationTilde (some 125) = "~2m 5s" ∧
    formatDurationTilde (some 125) ≠ "2m 5s" := by
  have e125 : jsFloor ((125 : ℚ) / 60) = 2 := by norm_num [jsFloor]
  have m125 : jsRound (jsMod 125 60) = 5 := by
    norm_num [jsRound, jsMod, jsTrunc, jsFloor]
  constructor
  · simp only [formatDurationTilde, e125, m125]
    decide
  · simp only [formatDurationTilde, e125, m125]
    decide

/-- Claim C10 (confirmed): because minutes use `floor(s / 60)` while the
seconds component independently rounds `s % 60`, an input within half a
second below a whole minute renders a seconds component of 60: 119.7
seconds renders `"1m 60s"` (jsx) and `"~1m 60s"` (part_003), not
`"2m 0s"`. -/
theorem formatDuration_sixty_seconds :
    formatDuration (some (1197 / 10)) = "1m 60s" ∧
    formatDurationTilde (some (1197 / 10)) = "~1m 60s" ∧
    formatDuration (some (1197 / 10)) ≠ "2m 0s" ∧
    (120 - 1 / 2 : ℚ) < 1197 / 10 ∧ (1197 / 10 : ℚ) < 120 := by
  have e : jsFloor ((1197 / 10 : ℚ) / 60) = 1 := by norm_num [jsFloor]
  have m : jsRound (jsMod (1197 / 10) 60) = 60 := by
    norm_num [jsRound, jsMod, jsTrunc, jsFloor]
  refine ⟨?_, ?_, ?_, by norm_num, by norm_num⟩
  · simp only [formatDuration, e, m]
    decide
  · simp only [formatDurationTilde, e, m]
    decide
  · simp only [formatDuration, e, m]
    decide

end CompanyAnalyzer
